import Mathlib

/-!
Shallow embedding of the VMFS block-allocation subsystem (`vmfs_block.c`).

Conventions of the embedding:
* Machine integers are `Nat` (with explicit `% 2^32` where the 32-bit width
  matters) and C status codes are `Int` (`0` success, `-1` failure).
* The bitmap codec, metadata lock and volume I/O are collaborators whose
  source is not part of this file set; they are modelled from the spec
  (each such definition carries a `Modelled from the spec:` doc comment).
* Side effects (lock / unlock / entry persistence, disk writes) are made
  observable through explicit event traces, and the process state (the four
  in-memory bitmaps backed by disk) is threaded explicitly.
-/

namespace VMFS

/-! ## Block address scheme -/

/-- Block class tag for File Blocks. Modelled from the spec: the
`VMFS_BLK_TYPE_*` constants live in the `vmfs.h` header, which is not among
the source files; the spec fixes only that exactly four classes exist. -/
def VMFS_BLK_TYPE_FB : Nat := 1

/-- Block class tag for Sub-Blocks (see `VMFS_BLK_TYPE_FB`). -/
def VMFS_BLK_TYPE_SB : Nat := 2

/-- Block class tag for Pointer Blocks (see `VMFS_BLK_TYPE_FB`). -/
def VMFS_BLK_TYPE_PB : Nat := 3

/-- Block class tag for File Descriptors / inodes (see `VMFS_BLK_TYPE_FB`). -/
def VMFS_BLK_TYPE_FD : Nat := 4

/-- Modelled from the spec: the `VMFS_BLK_TYPE` macro of `vmfs.h` is not in
the sources. The spec says a block identifier is a 32-bit value whose top
bits carry the class tag; we place the tag in the top four bits. -/
def VMFS_BLK_TYPE (blk_id : Nat) : Nat := (blk_id % 2^32) / 2^28

/-- Modelled from the spec: FB addressing is a single flat item index
occupying the identifier bits below the class tag. -/
def VMFS_BLK_FB_ITEM (blk_id : Nat) : Nat := blk_id % 2^28

/-- Modelled from the spec: inverse builder for File Block identifiers. -/
def VMFS_BLK_FB_BUILD (item : Nat) : Nat :=
  VMFS_BLK_TYPE_FB * 2^28 + item % 2^28

/-- Modelled from the spec: SB addressing is an (entry, item) pair packed
below the class tag; we give each coordinate 14 bits. -/
def VMFS_BLK_SB_ENTRY (blk_id : Nat) : Nat := (blk_id % 2^28) / 2^14

/-- Item coordinate of a Sub-Block identifier (see `VMFS_BLK_SB_ENTRY`). -/
def VMFS_BLK_SB_ITEM (blk_id : Nat) : Nat := blk_id % 2^14

/-- Modelled from the spec: inverse builder for Sub-Block identifiers. -/
def VMFS_BLK_SB_BUILD (e i : Nat) : Nat :=
  VMFS_BLK_TYPE_SB * 2^28 + (e % 2^14) * 2^14 + i % 2^14

/-- Entry coordinate of a Pointer Block identifier (same packing as SB). -/
def VMFS_BLK_PB_ENTRY (blk_id : Nat) : Nat := (blk_id % 2^28) / 2^14

/-- Item coordinate of a Pointer Block identifier. -/
def VMFS_BLK_PB_ITEM (blk_id : Nat) : Nat := blk_id % 2^14

/-- Modelled from the spec: inverse builder for Pointer Block identifiers. -/
def VMFS_BLK_PB_BUILD (e i : Nat) : Nat :=
  VMFS_BLK_TYPE_PB * 2^28 + (e % 2^14) * 2^14 + i % 2^14

/-- Entry coordinate of a File Descriptor identifier (same packing as SB). -/
def VMFS_BLK_FD_ENTRY (blk_id : Nat) : Nat := (blk_id % 2^28) / 2^14

/-- Item coordinate of a File Descriptor identifier. -/
def VMFS_BLK_FD_ITEM (blk_id : Nat) : Nat := blk_id % 2^14

/-- Modelled from the spec: inverse builder for File Descriptor ids. -/
def VMFS_BLK_FD_BUILD (e i : Nat) : Nat :=
  VMFS_BLK_TYPE_FD * 2^28 + (e % 2^14) * 2^14 + i % 2^14

/-- Which of the four bitmaps of the filesystem handle a block id routes to
(`fs->fbb`, `fs->sbc`, `fs->pbc`, `fs->fdc`). -/
inductive BmpSel where
  | fbb
  | sbc
  | pbc
  | fdc
deriving DecidableEq, Repr

/-- Embedding of `vmfs_block_get_bitmap_info` (vmfs_block.c:33-75): switch
on the class tag, yielding the bitmap selector and the (entry, item)
coordinates; the File Block case uses entry 0 and the flat item index; an
unknown tag returns failure (`none`, the C `-1` with no outputs written). -/
def vmfs_block_get_bitmap_info (blk_id : Nat) : Option (BmpSel × Nat × Nat) :=
  let blk_type := VMFS_BLK_TYPE blk_id
  if blk_type = VMFS_BLK_TYPE_FB then
    some (BmpSel.fbb, 0, VMFS_BLK_FB_ITEM blk_id)
  else if blk_type = VMFS_BLK_TYPE_SB then
    some (BmpSel.sbc, VMFS_BLK_SB_ENTRY blk_id, VMFS_BLK_SB_ITEM blk_id)
  else if blk_type = VMFS_BLK_TYPE_PB then
    some (BmpSel.pbc, VMFS_BLK_PB_ENTRY blk_id, VMFS_BLK_PB_ITEM blk_id)
  else if blk_type = VMFS_BLK_TYPE_FD then
    some (BmpSel.fdc, VMFS_BLK_FD_ENTRY blk_id, VMFS_BLK_FD_ITEM blk_id)
  else
    none

/-! ## Bitmap codec and filesystem state (collaborator model) -/

/-- Modelled from the spec: the bitmap codec (`vmfs_bitmap.c`) is a
collaborator whose source is absent. A bitmap is one of the four on-disk
allocation tables; its header gives the items-per-entry count, and `data`
is the on-disk allocation sub-map of each entry (one `Bool` per item,
`true` = allocated). -/
structure Bitmap where
  itemsPerEntry : Nat
  data : List (List Bool)
deriving DecidableEq, Repr

/-- Modelled from the spec: a bitmap entry read fresh from disk: its entry
id, the disk position of its metadata header (`mdh.pos`, the lock target),
and the in-memory copy of its allocation bits. -/
structure BitmapEntry where
  id : Nat
  pos : Nat
  bits : List Bool
deriving DecidableEq, Repr

/-- The filesystem handle's four bitmaps (`fs->fbb/sbc/pbc/fdc`), the only
state the allocator mutates. -/
structure FsState where
  fbb : Bitmap
  sbc : Bitmap
  pbc : Bitmap
  fdc : Bitmap
deriving DecidableEq, Repr

/-- Route a bitmap selector to the bitmap it names. -/
def FsState.get (s : FsState) : BmpSel → Bitmap
  | BmpSel.fbb => s.fbb
  | BmpSel.sbc => s.sbc
  | BmpSel.pbc => s.pbc
  | BmpSel.fdc => s.fdc

/-- Replace the bitmap a selector names. -/
def FsState.put (s : FsState) (sel : BmpSel) (b : Bitmap) : FsState :=
  match sel with
  | BmpSel.fbb => { s with fbb := b }
  | BmpSel.sbc => { s with sbc := b }
  | BmpSel.pbc => { s with pbc := b }
  | BmpSel.fdc => { s with fdc := b }

/-- Modelled from the spec: `vmfs_bitmap_get_entry` loads the on-disk entry
covering the flat address `entry * items_per_entry + item`; its metadata
position is identified with the entry id. Fails when the address is beyond
the bitmap. -/
def vmfs_bitmap_get_entry (b : Bitmap) (e i : Nat) : Option BitmapEntry :=
  let addr := e * b.itemsPerEntry + i
  let eid := addr / b.itemsPerEntry
  match b.data[eid]? with
  | some bits => some ⟨eid, eid, bits⟩
  | none => none

/-- Modelled from the spec: `vmfs_bitmap_get_item_status` reads the status
bit of the item at flat address `e * ipe + i` inside the loaded entry. -/
def vmfs_bitmap_get_item_status (ipe : Nat) (en : BitmapEntry) (e i : Nat) :
    Option Bool :=
  en.bits[(e * ipe + i) % ipe]?

/-- Modelled from the spec: `vmfs_bitmap_set_item_status` flips the item's
bit to the requested status in the in-memory entry copy; it rejects the
mutation when the index is out of range or the item is already in the
requested state (the codec must not silently double-count). -/
def vmfs_bitmap_set_item_status (ipe : Nat) (en : BitmapEntry) (e i : Nat)
    (status : Bool) : Option BitmapEntry :=
  let idx := (e * ipe + i) % ipe
  match en.bits[idx]? with
  | none => none
  | some b =>
      if b = status then none
      else some { en with bits := en.bits.set idx status }

/-- Modelled from the spec: `vmfs_bme_update` persists the in-memory entry
copy back to its on-disk slot. -/
def Bitmap.updateEntry (b : Bitmap) (en : BitmapEntry) : Bitmap :=
  { b with data := b.data.set en.id en.bits }

/-- Index of the first free (`false`) item of an entry's bit run, the
ascending-item half of the codec's first-fit search. -/
def firstFree : List Bool → Option Nat
  | [] => none
  | b :: rest =>
      if b = false then some 0 else (firstFree rest).map (· + 1)

/-- Index of the first entry containing a free item, the ascending-entry
half of the codec's first-fit search. -/
def findFreeEntry : List (List Bool) → Option Nat
  | [] => none
  | bits :: rest =>
      if (firstFree bits).isSome then some 0
      else (findFreeEntry rest).map (· + 1)

/-- Observable side effects of an allocator operation: metadata lock
acquisition attempts and releases (by disk position) and entry persistence
(`vmfs_bme_update`, by entry id). -/
inductive Event where
  | lock (pos : Nat)
  | unlock (pos : Nat)
  | persist (eid : Nat)
deriving DecidableEq, Repr

/-- Number of unlock events in a trace. -/
def countUnlock (tr : List Event) : Nat :=
  (tr.filter fun ev => match ev with
    | Event.unlock _ => true
    | _ => false).length

/-- Modelled from the spec: `vmfs_bitmap_find_free_items` scans entries in
ascending order for one containing a free item, acquires the metadata lock
on it as part of finding-and-reserving, and returns the entry with the
lock held. `lockRes` is the lock collaborator's return code per disk
position (`0` success, `-1` failure). -/
def vmfs_bitmap_find_free_items (lockRes : Nat → Int) (b : Bitmap) :
    Option BitmapEntry × List Event :=
  match findFreeEntry b.data with
  | none => (none, [])
  | some eid =>
      match b.data[eid]? with
      | none => (none, [])
      | some bits =>
          if lockRes eid = 0 then (some ⟨eid, eid, bits⟩, [Event.lock eid])
          else (none, [Event.lock eid])

/-- Modelled from the spec: `vmfs_bitmap_alloc_item` marks the first free
item of the locked entry allocated in the in-memory copy and reports its
index. -/
def vmfs_bitmap_alloc_item (en : BitmapEntry) : Option (Nat × BitmapEntry) :=
  match firstFree en.bits with
  | none => none
  | some i => some (i, { en with bits := en.bits.set i true })

/-! ## Block allocator (`vmfs_block.c`) -/

/-- C logical negation: `!x` is `1` when `x == 0` and `0` otherwise. -/
def cNot (x : Int) : Int := if x = 0 then 1 else 0

/-- Embedding of `vmfs_block_get_status` (vmfs_block.c:78-91): resolve the
id, load the entry fresh from disk, report the item's status bit (`true` =
allocated); `none` is the C `-1`. No locking. -/
def vmfs_block_get_status (s : FsState) (blk_id : Nat) : Option Bool :=
  match vmfs_block_get_bitmap_info blk_id with
  | none => none
  | some (sel, e, i) =>
      match vmfs_bitmap_get_entry (s.get sel) e i with
      | none => none
      | some en =>
          vmfs_bitmap_get_item_status (s.get sel).itemsPerEntry en e i

/-- Embedding of `vmfs_block_set_status` (vmfs_block.c:94-125). The lock
check is embedded exactly as written in the source,
`if (!vmfs_metadata_lock(...) == -1) return(-1);`, i.e. the C logical
negation of the lock's return code compared against `-1`. `lockRes` gives
the lock call's return code per position; the result is the C return code,
the post state and the event trace. -/
def vmfs_block_set_status (lockRes : Nat → Int) (s : FsState) (blk_id : Nat)
    (status : Bool) : Int × FsState × List Event :=
  match vmfs_block_get_bitmap_info blk_id with
  | none => (-1, s, [])
  | some (sel, e, i) =>
      match vmfs_bitmap_get_entry (s.get sel) e i with
      | none => (-1, s, [])
      | some en =>
          if cNot (lockRes en.pos) = -1 then
            (-1, s, [Event.lock en.pos])
          else
            match vmfs_bitmap_set_item_status (s.get sel).itemsPerEntry
                en e i status with
            | none => (-1, s, [Event.lock en.pos, Event.unlock en.pos])
            | some en2 =>
                (0, s.put sel ((s.get sel).updateEntry en2),
                 [Event.lock en.pos, Event.persist en2.id, Event.unlock en.pos])

/-- Embedding of `vmfs_block_alloc_specified` (vmfs_block.c:128-131). -/
def vmfs_block_alloc_specified (lockRes : Nat → Int) (s : FsState)
    (blk_id : Nat) : Int × FsState × List Event :=
  vmfs_block_set_status lockRes s blk_id true

/-- Embedding of `vmfs_block_free` (vmfs_block.c:134-137). -/
def vmfs_block_free (lockRes : Nat → Int) (s : FsState) (blk_id : Nat) :
    Int × FsState × List Event :=
  vmfs_block_set_status lockRes s blk_id false

/-- The first switch of `vmfs_block_alloc` (vmfs_block.c:146-161): map the
requested class to its bitmap, or fail on an unknown class. -/
def blkTypeSel (blk_type : Nat) : Option BmpSel :=
  if blk_type = VMFS_BLK_TYPE_FB then some BmpSel.fbb
  else if blk_type = VMFS_BLK_TYPE_SB then some BmpSel.sbc
  else if blk_type = VMFS_BLK_TYPE_PB then some BmpSel.pbc
  else if blk_type = VMFS_BLK_TYPE_FD then some BmpSel.fdc
  else none

/-- The final switch of `vmfs_block_alloc` (vmfs_block.c:174-188): encode
the allocated (entry, item) pair as a block id of the requested class (the
C switch has no default; the `FD` arm is its last case). -/
def allocEncode (blk_type : Nat) (ipe eid item : Nat) : Nat :=
  if blk_type = VMFS_BLK_TYPE_FB then VMFS_BLK_FB_BUILD (eid * ipe + item)
  else if blk_type = VMFS_BLK_TYPE_SB then VMFS_BLK_SB_BUILD eid item
  else if blk_type = VMFS_BLK_TYPE_PB then VMFS_BLK_PB_BUILD eid item
  else VMFS_BLK_FD_BUILD eid item

/-- Embedding of `vmfs_block_alloc` (vmfs_block.c:140-191): select the
class's bitmap, find-and-lock an entry with a free item, allocate the
item (unlocking and failing if that is rejected), persist the entry,
unlock, and encode the resulting block id. `none` in the first component
is the C `-1` with `*blk_id` unwritten. -/
def vmfs_block_alloc (lockRes : Nat → Int) (s : FsState) (blk_type : Nat) :
    Option Nat × FsState × List Event :=
  match blkTypeSel blk_type with
  | none => (none, s, [])
  | some sel =>
      match vmfs_bitmap_find_free_items lockRes (s.get sel) with
      | (none, tr) => (none, s, tr)
      | (some en, tr) =>
          match vmfs_bitmap_alloc_item en with
          | none => (none, s, tr ++ [Event.unlock en.pos])
          | some (item, en2) =>
              (some (allocEncode blk_type (s.get sel).itemsPerEntry en.id item),
               s.put sel ((s.get sel).updateEntry en2),
               tr ++ [Event.persist en2.id, Event.unlock en.pos])

/-! ## Block zeroizer (`vmfs_block.c`) -/

/-- The write loop of `vmfs_block_zeroize_fb` (vmfs_block.c:208-213):
`while (pos < len) { if (write(...,buf,buf_len) != buf_len) return -1;
pos += buf_len; }`. `w pos` is the byte count the volume I/O collaborator
reports for the chunk written at offset `pos`; the returned list records
the offsets of the writes actually issued, in order. The `0 < c` guard
only encodes termination: with a zero chunk size the C loop never ends. -/
def zeroize_writes (w : Nat → Nat) (c len pos : Nat) : Int × List Nat :=
  if h : 0 < c ∧ pos < len then
    if w pos = c then
      let r := zeroize_writes w c len (pos + c)
      (r.1, pos :: r.2)
    else (-1, [pos])
  else (0, [])
termination_by len - pos
decreasing_by omega

/-- Embedding of `vmfs_block_zeroize_fb` (vmfs_block.c:194-216): reject
non-File-Block ids before any I/O, then zero the block in chunks of the
disk I/O unit `c` (`M_DIO_BLK_SIZE`, a header constant kept as a
parameter) up to the configured block size `len`. -/
def vmfs_block_zeroize_fb (w : Nat → Nat) (c len : Nat) (blk_id : Nat) :
    Int × List Nat :=
  if VMFS_BLK_TYPE blk_id ≠ VMFS_BLK_TYPE_FB then (-1, [])
  else zeroize_writes w c len 0

/-! ## Theorems -/

/-- C's `!x` is 0 or 1, so comparing it against -1 can never succeed: the
arithmetic core of the lock-guard defect. -/
theorem cNot_ne_neg_one (x : Int) : cNot x ≠ -1 := by
  unfold cNot
  split <;> decide

/-- Reading back the bitmap just stored for a selector. -/
theorem FsState.get_put_self (s : FsState) (sel : BmpSel) (b : Bitmap) :
    (s.put sel b).get sel = b := by
  cases sel <;> rfl

/-- The function firstFree returns an in-range index holding a free item. -/
theorem firstFree_spec :
    ∀ (bits : List Bool) (i : Nat), firstFree bits = some i →
      i < bits.length ∧ bits[i]? = some false := by
  intro bits
  induction bits with
  | nil => intro i h; simp [firstFree] at h
  | cons b rest ih =>
      intro i h
      by_cases hb : b = false
      · subst hb
        simp [firstFree] at h
        subst h
        simp
      · simp [firstFree, hb] at h
        obtain ⟨j, hj, hji⟩ := h
        obtain ⟨h1, h2⟩ := ih j hj
        subst hji
        refine ⟨by simpa using Nat.succ_lt_succ h1, by simpa using h2⟩

/-- An all-allocated entry has no free item. -/
theorem firstFree_none_of_all_true (bits : List Bool)
    (h : ∀ b ∈ bits, b = true) : firstFree bits = none := by
  induction bits with
  | nil => rfl
  | cons b rest ih =>
      have hb : b = true := h b (by simp)
      simp [firstFree, hb, ih (fun x hx => h x (by simp [hx]))]

/-- The function findFreeEntry returns an in-range entry index whose entry has a free
item. -/
theorem findFreeEntry_spec :
    ∀ (dat : List (List Bool)) (e : Nat), findFreeEntry dat = some e →
      e < dat.length ∧
        ∃ bits, dat[e]? = some bits ∧ (firstFree bits).isSome := by
  intro dat
  induction dat with
  | nil => intro e h; simp [findFreeEntry] at h
  | cons bits rest ih =>
      intro e h
      by_cases hb : (firstFree bits).isSome
      · simp [findFreeEntry, hb] at h
        subst h
        exact ⟨Nat.succ_pos _, bits, by simp, hb⟩
      · simp [findFreeEntry, hb] at h
        obtain ⟨j, hj, hje⟩ := h
        obtain ⟨h1, bits2, h2, h3⟩ := ih j hj
        subst hje
        exact ⟨by simpa using Nat.succ_lt_succ h1, bits2, by simpa using h2, h3⟩

/-- When every entry is fully allocated the first-fit search fails. -/
theorem findFreeEntry_none (dat : List (List Bool))
    (h : ∀ bits ∈ dat, firstFree bits = none) : findFreeEntry dat = none := by
  induction dat with
  | nil => rfl
  | cons bits rest ih =>
      have hb : firstFree bits = none := h bits (by simp)
      simp [findFreeEntry, hb, ih (fun x hx => h x (by simp [hx]))]

/-- Inversion of a successful find-and-lock: the trace is the single lock
acquisition on the found entry, the lock succeeded there, and the entry is
the first one holding a free item. -/
theorem find_free_items_some (lockRes : Nat → Int) (b : Bitmap)
    (en : BitmapEntry) (tr : List Event)
    (h : vmfs_bitmap_find_free_items lockRes b = (some en, tr)) :
    tr = [Event.lock en.pos] ∧ lockRes en.pos = 0 ∧ en.pos = en.id ∧
      b.data[en.id]? = some en.bits ∧ findFreeEntry b.data = some en.id := by
  unfold vmfs_bitmap_find_free_items at h
  split at h
  · exact absurd h (by simp)
  next eid heq =>
    split at h
    · exact absurd h (by simp)
    next bits heq2 =>
      split at h
      next h3 =>
        injection h with h4 h5
        injection h4 with h6
        subst h6
        exact ⟨h5.symm, h3, rfl, heq2, heq⟩
      next h3 => exact absurd h (by simp)

/-- Inversion of a successful `vmfs_block_alloc`: the class is known, the
locked entry is the first with a free item, the item is its first free
index, the returned id encodes (entry, item) for the class, the entry is
persisted with the item's bit set, and the trace is lock-persist-unlock on
the entry. -/
theorem alloc_some_inv (lockRes : Nat → Int) (s : FsState) (blk_type : Nat)
    (id : Nat) (s2 : FsState) (tr : List Event)
    (h : vmfs_block_alloc lockRes s blk_type = (some id, s2, tr)) :
    ∃ (sel : BmpSel) (en : BitmapEntry) (i0 : Nat),
      blkTypeSel blk_type = some sel ∧
      findFreeEntry (s.get sel).data = some en.id ∧
      (s.get sel).data[en.id]? = some en.bits ∧
      en.pos = en.id ∧ lockRes en.id = 0 ∧
      firstFree en.bits = some i0 ∧
      id = allocEncode blk_type (s.get sel).itemsPerEntry en.id i0 ∧
      s2 = s.put sel ((s.get sel).updateEntry
        { en with bits := en.bits.set i0 true }) ∧
      tr = [Event.lock en.id, Event.persist en.id, Event.unlock en.id] := by
  unfold vmfs_block_alloc at h
  split at h
  · exact absurd h (by simp)
  next sel hsel =>
    split at h
    · exact absurd h (by simp)
    next en ftr hf =>
      obtain ⟨htr, hlk, hpos, hbits, hffe⟩ :=
        find_free_items_some lockRes (s.get sel) en ftr hf
      split at h
      · exact absurd h (by simp)
      next item en2 halc =>
        unfold vmfs_bitmap_alloc_item at halc
        split at halc
        · exact absurd halc (by simp)
        next i0 hff =>
          injection halc with halc2
          injection halc2 with hit hen2
          subst hit
          subst hen2
          injection h with h4 h5
          injection h4 with hid
          injection h5 with hs2 htr2
          refine ⟨sel, en, i0, hsel, hffe, hbits, hpos, hpos ▸ hlk, hff,
            hid.symm, hs2.symm, ?_⟩
          rw [← htr2, htr, hpos]
          rfl

/-- The item index a successful alloc uses is within the entry's bit run,
and the entry index is within the bitmap. -/
theorem alloc_coords_bounds (b : Bitmap) (en : BitmapEntry) (i0 : Nat)
    (hbits : b.data[en.id]? = some en.bits)
    (hff : firstFree en.bits = some i0) :
    en.id < b.data.length ∧ i0 < en.bits.length := by
  refine ⟨?_, (firstFree_spec en.bits i0 hff).1⟩
  rcases Nat.lt_or_ge en.id b.data.length with h | h
  · exact h
  · rw [List.getElem?_eq_none h] at hbits
    cases hbits

/-- A trace starting with a lock event has the unlock count of its tail. -/
theorem countUnlock_cons_lock (p : Nat) (tr : List Event) :
    countUnlock (Event.lock p :: tr) = countUnlock tr := rfl

/-- A trace starting with a persist event has the unlock count of its
tail. -/
theorem countUnlock_cons_persist (p : Nat) (tr : List Event) :
    countUnlock (Event.persist p :: tr) = countUnlock tr := rfl

/-- A trace starting with an unlock event has one more unlock than its
tail. -/
theorem countUnlock_cons_unlock (p : Nat) (tr : List Event) :
    countUnlock (Event.unlock p :: tr) = countUnlock tr + 1 := by
  simp [countUnlock, List.filter]

/-- The class tag of a built File Block identifier is always FB. -/
theorem type_fb_build (item : Nat) :
    VMFS_BLK_TYPE (VMFS_BLK_FB_BUILD item) = VMFS_BLK_TYPE_FB := by
  simp only [VMFS_BLK_TYPE, VMFS_BLK_FB_BUILD, VMFS_BLK_TYPE_FB]
  omega

/-- The class tag of a built Sub-Block identifier is always SB. -/
theorem type_sb_build (e i : Nat) :
    VMFS_BLK_TYPE (VMFS_BLK_SB_BUILD e i) = VMFS_BLK_TYPE_SB := by
  simp only [VMFS_BLK_TYPE, VMFS_BLK_SB_BUILD, VMFS_BLK_TYPE_SB]
  omega

/-- The class tag of a built Pointer Block identifier is always PB. -/
theorem type_pb_build (e i : Nat) :
    VMFS_BLK_TYPE (VMFS_BLK_PB_BUILD e i) = VMFS_BLK_TYPE_PB := by
  simp only [VMFS_BLK_TYPE, VMFS_BLK_PB_BUILD, VMFS_BLK_TYPE_PB]
  omega

/-- The class tag of a built File Descriptor identifier is always FD. -/
theorem type_fd_build (e i : Nat) :
    VMFS_BLK_TYPE (VMFS_BLK_FD_BUILD e i) = VMFS_BLK_TYPE_FD := by
  simp only [VMFS_BLK_TYPE, VMFS_BLK_FD_BUILD, VMFS_BLK_TYPE_FD]
  omega

/-- Resolving a built File Block identifier recovers bitmap `fbb`, entry 0
and the flat item index. -/
theorem resolve_fb_build (item : Nat) (h : item < 2^28) :
    vmfs_block_get_bitmap_info (VMFS_BLK_FB_BUILD item)
      = some (BmpSel.fbb, 0, item) := by
  have ht := type_fb_build item
  have hitem : VMFS_BLK_FB_ITEM (VMFS_BLK_FB_BUILD item) = item := by
    simp only [VMFS_BLK_FB_ITEM, VMFS_BLK_FB_BUILD, VMFS_BLK_TYPE_FB]
    omega
  simp [vmfs_block_get_bitmap_info, ht, hitem, VMFS_BLK_TYPE_FB]

/-- Resolving a built Sub-Block identifier recovers bitmap `sbc` and the
coordinates. -/
theorem resolve_sb_build (e i : Nat) (he : e < 2^14) (hi : i < 2^14) :
    vmfs_block_get_bitmap_info (VMFS_BLK_SB_BUILD e i)
      = some (BmpSel.sbc, e, i) := by
  have ht := type_sb_build e i
  have h1 : VMFS_BLK_SB_ENTRY (VMFS_BLK_SB_BUILD e i) = e := by
    simp only [VMFS_BLK_SB_ENTRY, VMFS_BLK_SB_BUILD, VMFS_BLK_TYPE_SB]
    omega
  have h2 : VMFS_BLK_SB_ITEM (VMFS_BLK_SB_BUILD e i) = i := by
    simp only [VMFS_BLK_SB_ITEM, VMFS_BLK_SB_BUILD, VMFS_BLK_TYPE_SB]
    omega
  simp [vmfs_block_get_bitmap_info, ht, h1, h2, VMFS_BLK_TYPE_FB,
    VMFS_BLK_TYPE_SB]

/-- Resolving a built Pointer Block identifier recovers bitmap `pbc` and
the coordinates. -/
theorem resolve_pb_build (e i : Nat) (he : e < 2^14) (hi : i < 2^14) :
    vmfs_block_get_bitmap_info (VMFS_BLK_PB_BUILD e i)
      = some (BmpSel.pbc, e, i) := by
  have ht := type_pb_build e i
  have h1 : VMFS_BLK_PB_ENTRY (VMFS_BLK_PB_BUILD e i) = e := by
    simp only [VMFS_BLK_PB_ENTRY, VMFS_BLK_PB_BUILD, VMFS_BLK_TYPE_PB]
    omega
  have h2 : VMFS_BLK_PB_ITEM (VMFS_BLK_PB_BUILD e i) = i := by
    simp only [VMFS_BLK_PB_ITEM, VMFS_BLK_PB_BUILD, VMFS_BLK_TYPE_PB]
    omega
  simp [vmfs_block_get_bitmap_info, ht, h1, h2, VMFS_BLK_TYPE_FB,
    VMFS_BLK_TYPE_SB, VMFS_BLK_TYPE_PB]

/-- Resolving a built File Descriptor identifier recovers bitmap `fdc` and
the coordinates. -/
theorem resolve_fd_build (e i : Nat) (he : e < 2^14) (hi : i < 2^14) :
    vmfs_block_get_bitmap_info (VMFS_BLK_FD_BUILD e i)
      = some (BmpSel.fdc, e, i) := by
  have ht := type_fd_build e i
  have h1 : VMFS_BLK_FD_ENTRY (VMFS_BLK_FD_BUILD e i) = e := by
    simp only [VMFS_BLK_FD_ENTRY, VMFS_BLK_FD_BUILD, VMFS_BLK_TYPE_FD]
    omega
  have h2 : VMFS_BLK_FD_ITEM (VMFS_BLK_FD_BUILD e i) = i := by
    simp only [VMFS_BLK_FD_ITEM, VMFS_BLK_FD_BUILD, VMFS_BLK_TYPE_FD]
    omega
  simp [vmfs_block_get_bitmap_info, ht, h1, h2, VMFS_BLK_TYPE_FB,
    VMFS_BLK_TYPE_SB, VMFS_BLK_TYPE_PB, VMFS_BLK_TYPE_FD]

/-- C3: for each of the four block classes, resolving the identifier the
class's builder produces yields that class's bitmap selector and the
original coordinates exactly; for a File Block the resolved entry index is
0 and the item index is the flat index. -/
theorem blk_build_resolve_roundtrip :
    (∀ item : Nat, item < 2^28 →
      vmfs_block_get_bitmap_info (VMFS_BLK_FB_BUILD item)
        = some (BmpSel.fbb, 0, item)) ∧
    (∀ e i : Nat, e < 2^14 → i < 2^14 →
      vmfs_block_get_bitmap_info (VMFS_BLK_SB_BUILD e i)
        = some (BmpSel.sbc, e, i)) ∧
    (∀ e i : Nat, e < 2^14 → i < 2^14 →
      vmfs_block_get_bitmap_info (VMFS_BLK_PB_BUILD e i)
        = some (BmpSel.pbc, e, i)) ∧
    (∀ e i : Nat, e < 2^14 → i < 2^14 →
      vmfs_block_get_bitmap_info (VMFS_BLK_FD_BUILD e i)
        = some (BmpSel.fdc, e, i)) := by
  exact ⟨resolve_fb_build, resolve_sb_build, resolve_pb_build,
    resolve_fd_build⟩

/-- Witness for C3 at concrete coordinates of each class. -/
theorem blk_build_resolve_roundtrip_witness :
    vmfs_block_get_bitmap_info (VMFS_BLK_FB_BUILD 5)
        = some (BmpSel.fbb, 0, 5) ∧
    vmfs_block_get_bitmap_info (VMFS_BLK_SB_BUILD 3 7)
        = some (BmpSel.sbc, 3, 7) ∧
    vmfs_block_get_bitmap_info (VMFS_BLK_PB_BUILD 2 9)
        = some (BmpSel.pbc, 2, 9) ∧
    vmfs_block_get_bitmap_info (VMFS_BLK_FD_BUILD 1 4)
        = some (BmpSel.fdc, 1, 4) :=
  ⟨blk_build_resolve_roundtrip.1 5 (by norm_num),
   blk_build_resolve_roundtrip.2.1 3 7 (by norm_num) (by norm_num),
   blk_build_resolve_roundtrip.2.2.1 2 9 (by norm_num) (by norm_num),
   blk_build_resolve_roundtrip.2.2.2 1 4 (by norm_num) (by norm_num)⟩

/-- C6: a block id whose class tag is none of the four known tags makes
`vmfs_block_get_bitmap_info` fail with no outputs, and an unknown class
argument makes `vmfs_block_alloc` fail before any bitmap search or
mutation (state unchanged, no lock / persist events). -/
theorem unknown_block_class_rejected :
    (∀ blk_id : Nat,
      VMFS_BLK_TYPE blk_id ≠ VMFS_BLK_TYPE_FB →
      VMFS_BLK_TYPE blk_id ≠ VMFS_BLK_TYPE_SB →
      VMFS_BLK_TYPE blk_id ≠ VMFS_BLK_TYPE_PB →
      VMFS_BLK_TYPE blk_id ≠ VMFS_BLK_TYPE_FD →
      vmfs_block_get_bitmap_info blk_id = none) ∧
    (∀ (blk_type : Nat) (lockRes : Nat → Int) (s : FsState),
      blk_type ≠ VMFS_BLK_TYPE_FB → blk_type ≠ VMFS_BLK_TYPE_SB →
      blk_type ≠ VMFS_BLK_TYPE_PB → blk_type ≠ VMFS_BLK_TYPE_FD →
      vmfs_block_alloc lockRes s blk_type = (none, s, [])) := by
  constructor
  · intro blk_id h1 h2 h3 h4
    simp [vmfs_block_get_bitmap_info, h1, h2, h3, h4]
  · intro blk_type lockRes s h1 h2 h3 h4
    simp [vmfs_block_alloc, blkTypeSel, h1, h2, h3, h4]

/-- Witness for C6: a fifth tag (5) for resolve, class argument 7 for
alloc, on a one-entry filesystem state. -/
theorem unknown_block_class_rejected_witness :
    vmfs_block_get_bitmap_info (5 * 2^28 + 17) = none ∧
    vmfs_block_alloc (fun _ => 0)
      ⟨⟨4, [[false, false]]⟩, ⟨4, []⟩, ⟨4, []⟩, ⟨4, []⟩⟩ 7
      = (none, ⟨⟨4, [[false, false]]⟩, ⟨4, []⟩, ⟨4, []⟩, ⟨4, []⟩⟩, []) :=
  ⟨unknown_block_class_rejected.1 (5 * 2^28 + 17) (by decide) (by decide)
      (by decide) (by decide),
   unknown_block_class_rejected.2 7 (fun _ => 0) _ (by decide) (by decide)
      (by decide) (by decide)⟩

/-- C7: `vmfs_block_zeroize_fb` on an id whose class tag is not File Block
fails and issues no writes at all, whatever the chunk size, block size and
write collaborator. -/
theorem zeroize_nonfb_no_io (w : Nat → Nat) (c len blk_id : Nat)
    (h : VMFS_BLK_TYPE blk_id ≠ VMFS_BLK_TYPE_FB) :
    vmfs_block_zeroize_fb w c len blk_id = (-1, []) := by
  simp [vmfs_block_zeroize_fb, h]

/-- Witness for C7: a Sub-Block identifier is rejected with no writes. -/
theorem zeroize_nonfb_no_io_witness :
    vmfs_block_zeroize_fb (fun _ => 512) 512 4096 (VMFS_BLK_SB_BUILD 0 0)
      = (-1, []) :=
  zeroize_nonfb_no_io (fun _ => 512) 512 4096 (VMFS_BLK_SB_BUILD 0 0)
    (by decide)

/-- When every write reports the full chunk size, the zeroize loop
succeeds and issues writes at `pos, pos + c, ...`, one per chunk needed to
cover `len - pos` bytes. -/
theorem zeroize_writes_full (w : Nat → Nat) (c len : Nat) (hc : 0 < c)
    (hw : ∀ p, w p = c) (pos : Nat) :
    zeroize_writes w c len pos
      = (0, List.range' pos ((len - pos + c - 1) / c) c) := by
  have H : ∀ n pos, len - pos ≤ n →
      zeroize_writes w c len pos
        = (0, List.range' pos ((len - pos + c - 1) / c) c) := by
    intro n
    induction n with
    | zero =>
        intro pos hle
        rw [zeroize_writes, dif_neg (by omega)]
        have h0 : (len - pos + c - 1) / c = 0 := by
          have hd : len - pos = 0 := by omega
          rw [hd]
          exact Nat.div_eq_of_lt (by omega)
        rw [h0]
        rfl
    | succ n ih =>
        intro pos hle
        by_cases h : pos < len
        · rw [zeroize_writes, dif_pos ⟨hc, h⟩, if_pos (hw pos),
            ih (pos + c) (by omega)]
          have hcount : (len - pos + c - 1) / c
              = (len - (pos + c) + c - 1) / c + 1 := by
            rcases Nat.lt_or_ge len (pos + c) with hlt | hge
            · have h1 : len - (pos + c) = 0 := by omega
              have h2 : (0 + c - 1) / c = 0 := Nat.div_eq_of_lt (by omega)
              have h3 : len - pos + c - 1 = (len - pos - 1) + c := by omega
              rw [h1, h2, h3, Nat.add_div_right _ hc,
                Nat.div_eq_of_lt (by omega)]
            · have h3 : len - pos + c - 1 = (len - (pos + c) + c - 1) + c := by
                omega
              rw [h3, Nat.add_div_right _ hc]
          rw [hcount, List.range'_succ]
        · rw [zeroize_writes, dif_neg (by omega)]
          have h0 : (len - pos + c - 1) / c = 0 := by
            have hd : len - pos = 0 := by omega
            rw [hd]
            exact Nat.div_eq_of_lt (by omega)
          rw [h0]
          rfl
  exact H (len - pos) pos le_rfl

/-- If the first `k` writes report the full chunk and the write at offset
`pos + c * k` (still inside the block) comes up short, the loop issues
exactly the `k + 1` writes up to and including the short one and fails. -/
theorem zeroize_writes_short (w : Nat → Nat) (c len : Nat) (hc : 0 < c) :
    ∀ k pos, (∀ j, j < k → w (pos + c * j) = c) → w (pos + c * k) < c →
      pos + c * k < len →
      zeroize_writes w c len pos = (-1, List.range' pos (k + 1) c) := by
  intro k
  induction k with
  | zero =>
      intro pos hfull hshort hlt
      have hs : w pos < c := by simpa using hshort
      have hp : pos < len := by simpa using hlt
      rw [zeroize_writes, dif_pos ⟨hc, hp⟩, if_neg (by omega)]
      rfl
  | succ k ih =>
      intro pos hfull hshort hlt
      have hp : pos < len :=
        lt_of_le_of_lt (Nat.le_add_right pos (c * (k + 1))) hlt
      have hw0 : w pos = c := by
        have := hfull 0 (Nat.succ_pos k)
        simpa using this
      have heq : ∀ j : Nat, pos + c + c * j = pos + c * (j + 1) := by
        intro j
        ring
      have hfull' : ∀ j, j < k → w (pos + c + c * j) = c := by
        intro j hj
        rw [heq j]
        exact hfull (j + 1) (Nat.succ_lt_succ hj)
      have hshort' : w (pos + c + c * k) < c := by
        rw [heq k]
        exact hshort
      have hlt' : pos + c + c * k < len := by
        rw [heq k]
        exact hlt
      rw [zeroize_writes, dif_pos ⟨hc, hp⟩, if_pos hw0,
        ih (pos + c) hfull' hshort' hlt']
      simp [List.range'_succ]

/-- C8: with block size 4096 and chunk size 512, zeroizing a File Block
issues exactly 8 writes at offsets 0, 512, ..., 3584 (each a full
512-zero-byte chunk) and succeeds; and if the write at offset `512 * k`
(`k < 8`) comes up short after `k` full writes, the operation fails
immediately, the short write being the last one issued. -/
theorem zeroize_fb_4096_512 :
    (∀ blk_id : Nat, VMFS_BLK_TYPE blk_id = VMFS_BLK_TYPE_FB →
      vmfs_block_zeroize_fb (fun _ => 512) 512 4096 blk_id
        = (0, [0, 512, 1024, 1536, 2048, 2560, 3072, 3584])) ∧
    (∀ (w : Nat → Nat) (blk_id k : Nat),
      VMFS_BLK_TYPE blk_id = VMFS_BLK_TYPE_FB → k < 8 →
      (∀ j, j < k → w (512 * j) = 512) → w (512 * k) < 512 →
      vmfs_block_zeroize_fb w 512 4096 blk_id
        = (-1, List.range' 0 (k + 1) 512)) := by
  constructor
  · intro blk_id h
    rw [vmfs_block_zeroize_fb, if_neg (by simp [h]),
      zeroize_writes_full _ _ _ (by norm_num) (fun p => rfl) 0]
    norm_num
    rfl
  · intro w blk_id k h hk hfull hshort
    rw [vmfs_block_zeroize_fb, if_neg (by simp [h])]
    exact zeroize_writes_short w 512 4096 (by norm_num) k 0
      (by intro j hj; simpa using hfull j hj) (by simpa using hshort)
      (by omega)

/-- Witness for C8: the all-full writer on a concrete FB id, and a writer
short at offset 1024 after two full writes. -/
theorem zeroize_fb_4096_512_witness :
    vmfs_block_zeroize_fb (fun _ => 512) 512 4096 (VMFS_BLK_FB_BUILD 3)
      = (0, [0, 512, 1024, 1536, 2048, 2560, 3072, 3584]) ∧
    vmfs_block_zeroize_fb (fun p => if p = 1024 then 100 else 512) 512 4096
        (VMFS_BLK_FB_BUILD 3)
      = (-1, List.range' 0 3 512) :=
  ⟨zeroize_fb_4096_512.1 (VMFS_BLK_FB_BUILD 3) (by decide),
   zeroize_fb_4096_512.2 (fun p => if p = 1024 then 100 else 512)
     (VMFS_BLK_FB_BUILD 3) 2 (by decide) (by decide)
     (by decide) (by decide)⟩

/-- C9: with a positive chunk size `c` and a writer that always reports a
full chunk, zeroizing a File Block of size `len` issues exactly
`⌈len / c⌉ = (len + c - 1) / c` writes at offsets `0, c, 2c, ...` (never a
short final chunk), so when `c` does not divide `len` the bytes written,
`⌈len / c⌉ * c`, strictly exceed the block size. -/
theorem zeroize_fb_chunk_count_overrun (w : Nat → Nat) (c len blk_id : Nat)
    (hc : 0 < c) (hw : ∀ p, w p = c)
    (hfb : VMFS_BLK_TYPE blk_id = VMFS_BLK_TYPE_FB) :
    vmfs_block_zeroize_fb w c len blk_id
      = (0, List.range' 0 ((len + c - 1) / c) c) ∧
    (len % c ≠ 0 → ((len + c - 1) / c) * c > len) := by
  constructor
  · rw [vmfs_block_zeroize_fb, if_neg (by simp [hfb]),
      zeroize_writes_full w c len hc hw 0]
    norm_num
  · intro hr
    have hq : len / c * c + len % c = len := Nat.div_add_mod' len c
    have hrc : len % c < c := Nat.mod_lt _ hc
    have h1 : len + c - 1 = ((len % c - 1) + c) + len / c * c := by omega
    have h2 : (len + c - 1) / c = ((len % c - 1) + c) / c + len / c := by
      rw [h1, Nat.add_mul_div_right _ _ hc]
    have h3 : ((len % c - 1) + c) / c = 1 := by
      rw [Nat.add_div_right _ hc, Nat.div_eq_of_lt (by omega)]
    rw [h2, h3, Nat.add_mul, Nat.one_mul]
    have h4 : len / c * c = len - len % c := by omega
    omega

/-- Witness for C9: block size 1000, chunk 512 → 2 writes at offsets 0 and
512, 1024 bytes written, overrunning the 1000-byte block. -/
theorem zeroize_fb_chunk_count_overrun_witness :
    vmfs_block_zeroize_fb (fun _ => 512) 512 1000 (VMFS_BLK_FB_BUILD 3)
      = (0, List.range' 0 ((1000 + 512 - 1) / 512) 512) ∧
    (1000 % 512 ≠ 0 → ((1000 + 512 - 1) / 512) * 512 > 1000) :=
  zeroize_fb_chunk_count_overrun (fun _ => 512) 512 1000 (VMFS_BLK_FB_BUILD 3)
    (by decide) (fun p => rfl) (by decide)

/-- Empty traces have no unlock. -/
theorem countUnlock_nil : countUnlock [] = 0 := rfl

/-- C2: on every execution of `vmfs_block_set_status` or
`vmfs_block_alloc` that reaches a successful Metadata Lock acquisition on
a bitmap entry, the trace contains exactly one unlock before the function
returns — on the success path and on the path where the bitmap codec
rejects the status change (`set_item_status` / `alloc_item`). -/
theorem unlock_exactly_once :
    (∀ (lockRes : Nat → Int) (s : FsState) (blk_id : Nat) (status : Bool)
       (sel : BmpSel) (e i : Nat) (en : BitmapEntry),
      vmfs_block_get_bitmap_info blk_id = some (sel, e, i) →
      vmfs_bitmap_get_entry (s.get sel) e i = some en →
      lockRes en.pos = 0 →
      countUnlock (vmfs_block_set_status lockRes s blk_id status).2.2 = 1) ∧
    (∀ (lockRes : Nat → Int) (s : FsState) (blk_type : Nat) (sel : BmpSel)
       (en : BitmapEntry) (ftr : List Event),
      blkTypeSel blk_type = some sel →
      vmfs_bitmap_find_free_items lockRes (s.get sel) = (some en, ftr) →
      countUnlock (vmfs_block_alloc lockRes s blk_type).2.2 = 1) := by
  constructor
  · intro lockRes s blk_id status sel e i en hinfo hent hlock
    have hc : ¬ (cNot (lockRes en.pos) = -1) := cNot_ne_neg_one _
    rcases hset : vmfs_bitmap_set_item_status (s.get sel).itemsPerEntry
        en e i status with _ | en2 <;>
      simp [vmfs_block_set_status, hinfo, hent, hc, hset,
        countUnlock_cons_lock, countUnlock_cons_persist,
        countUnlock_cons_unlock, countUnlock_nil]
  · intro lockRes s blk_type sel en ftr hsel hfind
    obtain ⟨htr, hlk, hpos, hbits, hffe⟩ :=
      find_free_items_some lockRes (s.get sel) en ftr hfind
    subst htr
    rcases halc : vmfs_bitmap_alloc_item en with _ | ⟨item, en2⟩ <;>
      simp [vmfs_block_alloc, hsel, hfind, halc, countUnlock_cons_lock,
        countUnlock_cons_persist, countUnlock_cons_unlock, countUnlock_nil,
        List.cons_append, List.nil_append]

/-- Witness for C2: one successful free and one allocation on a concrete
one-entry filesystem, each unlocking exactly once. -/
theorem unlock_exactly_once_witness :
    countUnlock (vmfs_block_set_status (fun _ => 0)
      ⟨⟨4, [[false, false, false, false]]⟩, ⟨4, []⟩, ⟨4, []⟩, ⟨4, []⟩⟩
      (VMFS_BLK_FB_BUILD 0) true).2.2 = 1 ∧
    countUnlock (vmfs_block_alloc (fun _ => 0)
      ⟨⟨4, [[false, false, false, false]]⟩, ⟨4, []⟩, ⟨4, []⟩, ⟨4, []⟩⟩
      VMFS_BLK_TYPE_FB).2.2 = 1 :=
  ⟨unlock_exactly_once.1 (fun _ => 0)
      ⟨⟨4, [[false, false, false, false]]⟩, ⟨4, []⟩, ⟨4, []⟩, ⟨4, []⟩⟩
      (VMFS_BLK_FB_BUILD 0) true BmpSel.fbb 0 0
      ⟨0, 0, [false, false, false, false]⟩ (by decide) (by decide) rfl,
   unlock_exactly_once.2 (fun _ => 0)
      ⟨⟨4, [[false, false, false, false]]⟩, ⟨4, []⟩, ⟨4, []⟩, ⟨4, []⟩⟩
      VMFS_BLK_TYPE_FB BmpSel.fbb ⟨0, 0, [false, false, false, false]⟩
      [Event.lock 0] rfl (by decide)⟩

/-- C5: when every entry of the requested class's bitmap is fully
allocated, `vmfs_block_alloc` propagates the free-item search failure and
leaves the state unchanged, with no lock, persist or unlock event. -/
theorem alloc_no_space_unchanged (lockRes : Nat → Int) (s : FsState)
    (blk_type : Nat) (sel : BmpSel)
    (hsel : blkTypeSel blk_type = some sel)
    (hfull : ∀ bits ∈ (s.get sel).data, ∀ b ∈ bits, b = true) :
    vmfs_block_alloc lockRes s blk_type = (none, s, []) := by
  have hffe : findFreeEntry (s.get sel).data = none :=
    findFreeEntry_none _ fun bits hb =>
      firstFree_none_of_all_true bits (hfull bits hb)
  have hfind : vmfs_bitmap_find_free_items lockRes (s.get sel)
      = (none, []) := by
    unfold vmfs_bitmap_find_free_items
    simp [hffe]
  simp [vmfs_block_alloc, hsel, hfind]

/-- Witness for C5: a File Block bitmap with two fully-allocated entries
yields a failed allocation and an unchanged state. -/
theorem alloc_no_space_unchanged_witness :
    vmfs_block_alloc (fun _ => 0)
      ⟨⟨2, [[true, true], [true, true]]⟩, ⟨2, []⟩, ⟨2, []⟩, ⟨2, []⟩⟩
      VMFS_BLK_TYPE_FB
      = (none, ⟨⟨2, [[true, true], [true, true]]⟩, ⟨2, []⟩, ⟨2, []⟩,
          ⟨2, []⟩⟩, []) :=
  alloc_no_space_unchanged (fun _ => 0)
    ⟨⟨2, [[true, true], [true, true]]⟩, ⟨2, []⟩, ⟨2, []⟩, ⟨2, []⟩⟩
    VMFS_BLK_TYPE_FB BmpSel.fbb rfl (by decide)

/-- C10: whenever `vmfs_block_alloc` succeeds it has assigned a block
identifier whose class tag is the requested class — the final encoding
switch covers every class the initial check accepts, so success never
leaves the output unwritten. -/
theorem alloc_success_assigns_requested_class (lockRes : Nat → Int)
    (s : FsState) (blk_type id : Nat) (s2 : FsState) (tr : List Event)
    (halloc : vmfs_block_alloc lockRes s blk_type = (some id, s2, tr)) :
    VMFS_BLK_TYPE id = blk_type := by
  obtain ⟨sel, en, i0, hsel, hffe, hbits, hpos, hlk, hff, hid, hs2, htr⟩ :=
    alloc_some_inv lockRes s blk_type id s2 tr halloc
  subst hid
  unfold blkTypeSel at hsel
  split_ifs at hsel with h1 h2 h3 h4
  · subst h1
    simp [allocEncode, type_fb_build]
  · subst h2
    simp [allocEncode, VMFS_BLK_TYPE_FB, VMFS_BLK_TYPE_SB, type_sb_build]
  · subst h3
    simp [allocEncode, VMFS_BLK_TYPE_FB, VMFS_BLK_TYPE_SB, VMFS_BLK_TYPE_PB,
      type_pb_build]
  · subst h4
    simp [allocEncode, VMFS_BLK_TYPE_FB, VMFS_BLK_TYPE_SB, VMFS_BLK_TYPE_PB,
      VMFS_BLK_TYPE_FD, type_fd_build]

/-- Witness for C10: a concrete FB allocation returns id `2^28` whose tag
is FB. -/
theorem alloc_success_assigns_requested_class_witness :
    VMFS_BLK_TYPE 268435456 = VMFS_BLK_TYPE_FB :=
  alloc_success_assigns_requested_class (fun _ => 0)
    ⟨⟨4, [[false, false, false, false]]⟩, ⟨4, []⟩, ⟨4, []⟩, ⟨4, []⟩⟩
    VMFS_BLK_TYPE_FB 268435456
    ⟨⟨4, [[true, false, false, false]]⟩, ⟨4, []⟩, ⟨4, []⟩, ⟨4, []⟩⟩
    [Event.lock 0, Event.persist 0, Event.unlock 0] (by decide)

/-- Loading the entry for a File Block flat address lands on the entry
covering the item and yields its bit run. -/
theorem get_entry_fb_flat (b : Bitmap) (eid i0 : Nat) (bits : List Bool)
    (hi0 : i0 < b.itemsPerEntry) (hbits : b.data[eid]? = some bits) :
    vmfs_bitmap_get_entry b 0 (eid * b.itemsPerEntry + i0)
      = some ⟨eid, eid, bits⟩ := by
  have hdiv : (0 * b.itemsPerEntry + (eid * b.itemsPerEntry + i0))
      / b.itemsPerEntry = eid := by
    rw [Nat.zero_mul, Nat.zero_add, Nat.mul_comm eid _,
      Nat.mul_add_div (by omega), Nat.div_eq_of_lt hi0, Nat.add_zero]
  unfold vmfs_bitmap_get_entry
  simp only [hdiv, hbits]

/-- Reading an item's status at a File Block flat address reads the item's
bit inside the entry. -/
theorem get_item_status_fb_flat (ipe eid i0 : Nat) (en : BitmapEntry)
    (hi0 : i0 < ipe) :
    vmfs_bitmap_get_item_status ipe en 0 (eid * ipe + i0)
      = en.bits[i0]? := by
  have hmod : (0 * ipe + (eid * ipe + i0)) % ipe = i0 := by
    rw [Nat.zero_mul, Nat.zero_add, Nat.mul_comm eid _, Nat.mul_add_mod,
      Nat.mod_eq_of_lt hi0]
  unfold vmfs_bitmap_get_item_status
  rw [hmod]

/-- Flipping an item's bit at a File Block flat address succeeds when the
item is currently in the opposite state, and sets exactly that bit. -/
theorem set_item_status_fb_flat (ipe eid i0 : Nat) (en : BitmapEntry)
    (st cur : Bool) (hi0 : i0 < ipe) (hcur : en.bits[i0]? = some cur)
    (hne : ¬ (cur = st)) :
    vmfs_bitmap_set_item_status ipe en 0 (eid * ipe + i0) st
      = some ⟨en.id, en.pos, en.bits.set i0 st⟩ := by
  have hmod : (0 * ipe + (eid * ipe + i0)) % ipe = i0 := by
    rw [Nat.zero_mul, Nat.zero_add, Nat.mul_comm eid _, Nat.mul_add_mod,
      Nat.mod_eq_of_lt hi0]
  unfold vmfs_bitmap_set_item_status
  simp only [hmod, hcur, hne, if_false]

/-- Reading status via `vmfs_block_get_status` on a File Block id reports the bit stored at
the id's flat address. -/
theorem get_status_fb_flat (s : FsState) (eid i0 : Nat) (bits : List Bool)
    (st : Bool) (hi0 : i0 < s.fbb.itemsPerEntry)
    (hflat : eid * s.fbb.itemsPerEntry + i0 < 2^28)
    (hbits : s.fbb.data[eid]? = some bits) (hst : bits[i0]? = some st) :
    vmfs_block_get_status s
      (VMFS_BLK_FB_BUILD (eid * s.fbb.itemsPerEntry + i0)) = some st := by
  have hinfo := resolve_fb_build _ hflat
  have hent : vmfs_bitmap_get_entry (s.get BmpSel.fbb) 0
      (eid * s.fbb.itemsPerEntry + i0) = some ⟨eid, eid, bits⟩ :=
    get_entry_fb_flat s.fbb eid i0 bits hi0 hbits
  have hgis : vmfs_bitmap_get_item_status (s.get BmpSel.fbb).itemsPerEntry
      (⟨eid, eid, bits⟩ : BitmapEntry) 0 (eid * s.fbb.itemsPerEntry + i0)
      = some st := by
    rw [show (s.get BmpSel.fbb).itemsPerEntry = s.fbb.itemsPerEntry from rfl,
      get_item_status_fb_flat _ eid i0 _ hi0]
    exact hst
  simp [vmfs_block_get_status, hinfo, hent, hgis]

/-- C4: in sequential use on a well-formed state, once
`vmfs_block_alloc(fs, FB)` succeeds with id `blk_id`, `get_status` reports
the block Allocated; a subsequent `vmfs_block_free(fs, blk_id)` succeeds,
after which `get_status` reports it Free. -/
theorem alloc_fb_then_free_status
    (lockRes lockRes2 : Nat → Int) (s : FsState) (id : Nat) (s2 : FsState)
    (tr : List Event)
    (hlen : ∀ bits ∈ s.fbb.data, bits.length = s.fbb.itemsPerEntry)
    (hcap : s.fbb.data.length * s.fbb.itemsPerEntry ≤ 2^28)
    (halloc : vmfs_block_alloc lockRes s VMFS_BLK_TYPE_FB
      = (some id, s2, tr)) :
    vmfs_block_get_status s2 id = some true ∧
    ∃ (s3 : FsState) (tr2 : List Event),
      vmfs_block_free lockRes2 s2 id = (0, s3, tr2) ∧
      vmfs_block_get_status s3 id = some false := by
  obtain ⟨sel, en, i0, hsel, hffe, hbits, hpos, hlk, hff, hid, hs2, htr⟩ :=
    alloc_some_inv lockRes s VMFS_BLK_TYPE_FB id s2 tr halloc
  have hself : BmpSel.fbb = sel := by
    have h0 : blkTypeSel VMFS_BLK_TYPE_FB = some BmpSel.fbb := rfl
    rw [h0] at hsel
    injection hsel
  subst hself
  obtain ⟨heid0, hi0len⟩ :=
    alloc_coords_bounds (s.get BmpSel.fbb) en i0 hbits hff
  have heid : en.id < s.fbb.data.length := heid0
  have hbitsf : s.fbb.data[en.id]? = some en.bits := hbits
  have hbl : en.bits.length = s.fbb.itemsPerEntry :=
    hlen en.bits (List.getElem?_mem hbitsf)
  have hi0 : i0 < s.fbb.itemsPerEntry := by omega
  have hflat : en.id * s.fbb.itemsPerEntry + i0 < 2^28 := by
    have h2 : (en.id + 1) * s.fbb.itemsPerEntry
        ≤ s.fbb.data.length * s.fbb.itemsPerEntry :=
      Nat.mul_le_mul_right _ (by omega)
    have h3 : (en.id + 1) * s.fbb.itemsPerEntry
        = en.id * s.fbb.itemsPerEntry + s.fbb.itemsPerEntry :=
      Nat.succ_mul en.id s.fbb.itemsPerEntry
    omega
  have hid2 : id = VMFS_BLK_FB_BUILD (en.id * s.fbb.itemsPerEntry + i0) :=
    hid
  have hfbb2 : s2.fbb = Bitmap.mk s.fbb.itemsPerEntry
      (s.fbb.data.set en.id (en.bits.set i0 true)) := by
    rw [hs2]
    rfl
  have hipe_eq : s2.fbb.itemsPerEntry = s.fbb.itemsPerEntry := by
    rw [hfbb2]
  have hi0b : i0 < s2.fbb.itemsPerEntry := by omega
  have hflat2 : en.id * s2.fbb.itemsPerEntry + i0 < 2^28 := by
    rw [hipe_eq]
    exact hflat
  have hbits2 : s2.fbb.data[en.id]? = some (en.bits.set i0 true) := by
    rw [hfbb2]
    exact List.getElem?_set_self heid
  have hstat2 : vmfs_block_get_status s2 id = some true := by
    rw [hid2, show en.id * s.fbb.itemsPerEntry + i0
      = en.id * s2.fbb.itemsPerEntry + i0 by rw [hipe_eq]]
    exact get_status_fb_flat s2 en.id i0 (en.bits.set i0 true) true hi0b
      hflat2 hbits2 (List.getElem?_set_self (by omega))
  refine ⟨hstat2, ?_⟩
  have hinfo : vmfs_block_get_bitmap_info id
      = some (BmpSel.fbb, 0, en.id * s2.fbb.itemsPerEntry + i0) := by
    rw [hid2, show en.id * s.fbb.itemsPerEntry + i0
      = en.id * s2.fbb.itemsPerEntry + i0 by rw [hipe_eq]]
    exact resolve_fb_build _ hflat2
  have hent2 : vmfs_bitmap_get_entry (s2.get BmpSel.fbb) 0
      (en.id * s2.fbb.itemsPerEntry + i0)
      = some ⟨en.id, en.id, en.bits.set i0 true⟩ :=
    get_entry_fb_flat s2.fbb en.id i0 (en.bits.set i0 true) hi0b hbits2
  have hset : vmfs_bitmap_set_item_status (s2.get BmpSel.fbb).itemsPerEntry
      (⟨en.id, en.id, en.bits.set i0 true⟩ : BitmapEntry) 0
      (en.id * s2.fbb.itemsPerEntry + i0) false
      = some ⟨en.id, en.id, (en.bits.set i0 true).set i0 false⟩ := by
    rw [show (s2.get BmpSel.fbb).itemsPerEntry = s2.fbb.itemsPerEntry
      from rfl]
    exact set_item_status_fb_flat s2.fbb.itemsPerEntry en.id i0 _ false true
      hi0b (List.getElem?_set_self (by omega)) (by simp)
  have hc : ¬ (cNot (lockRes2 en.id) = -1) := cNot_ne_neg_one _
  have hfree : vmfs_block_free lockRes2 s2 id
      = (0, s2.put BmpSel.fbb ((s2.get BmpSel.fbb).updateEntry
           ⟨en.id, en.id, (en.bits.set i0 true).set i0 false⟩),
         [Event.lock en.id, Event.persist en.id, Event.unlock en.id]) := by
    simp [vmfs_block_free, vmfs_block_set_status, hinfo, hent2, hc, hset]
  refine ⟨_, _, hfree, ?_⟩
  have hfbb3 : (s2.put BmpSel.fbb ((s2.get BmpSel.fbb).updateEntry
      ⟨en.id, en.id, (en.bits.set i0 true).set i0 false⟩)).fbb
      = Bitmap.mk s2.fbb.itemsPerEntry
        (s2.fbb.data.set en.id ((en.bits.set i0 true).set i0 false)) := rfl
  have heid2 : en.id < s2.fbb.data.length := by
    rw [hfbb2]
    simpa using heid
  have hstat3 : vmfs_block_get_status
      (s2.put BmpSel.fbb ((s2.get BmpSel.fbb).updateEntry
        ⟨en.id, en.id, (en.bits.set i0 true).set i0 false⟩))
      (VMFS_BLK_FB_BUILD (en.id * s2.fbb.itemsPerEntry + i0))
      = some false := by
    apply get_status_fb_flat _ en.id i0 ((en.bits.set i0 true).set i0 false)
      false
    · rw [hfbb3]
      exact hi0b
    · rw [hfbb3]
      exact hflat2
    · rw [hfbb3]
      exact List.getElem?_set_self heid2
    · exact List.getElem?_set_self (by simpa using hi0len)
  rw [hid2, show en.id * s.fbb.itemsPerEntry + i0
    = en.id * s2.fbb.itemsPerEntry + i0 by rw [hipe_eq]]
  exact hstat3

/-- Witness for C4: allocating on a one-entry four-item FB bitmap returns
id `2^28` (entry 0, item 0); its status then reads Allocated, freeing it
succeeds, and its status then reads Free. -/
theorem alloc_fb_then_free_status_witness :
    vmfs_block_get_status
      ⟨⟨4, [[true, false, false, false]]⟩, ⟨4, []⟩, ⟨4, []⟩, ⟨4, []⟩⟩
      268435456 = some true ∧
    ∃ (s3 : FsState) (tr2 : List Event),
      vmfs_block_free (fun _ => 0)
        ⟨⟨4, [[true, false, false, false]]⟩, ⟨4, []⟩, ⟨4, []⟩, ⟨4, []⟩⟩
        268435456 = (0, s3, tr2) ∧
      vmfs_block_get_status s3 268435456 = some false :=
  alloc_fb_then_free_status (fun _ => 0) (fun _ => 0)
    ⟨⟨4, [[false, false, false, false]]⟩, ⟨4, []⟩, ⟨4, []⟩, ⟨4, []⟩⟩
    268435456
    ⟨⟨4, [[true, false, false, false]]⟩, ⟨4, []⟩, ⟨4, []⟩, ⟨4, []⟩⟩
    [Event.lock 0, Event.persist 0, Event.unlock 0]
    (by decide) (by decide) (by decide)

/-- C1 (code defect, vmfs_block.c:109-111): the source guards the lock
acquisition with `if (!vmfs_metadata_lock(...) == -1) return(-1);`. By C
precedence `!call` is 0 or 1 and never equals -1, so the guard never
fires: even when the lock call reports failure (-1), `vmfs_block_set_status`
— here via `vmfs_block_alloc_specified` — proceeds to flip the bitmap bit,
persist the entry, and return success, contradicting the intended
"no mutation on lock failure" contract. -/
theorem lock_failure_still_mutates :
    (vmfs_block_alloc_specified (fun _ => -1)
        ⟨⟨4, [[false, false, false, false]]⟩, ⟨4, []⟩, ⟨4, []⟩, ⟨4, []⟩⟩
        (VMFS_BLK_FB_BUILD 0))
      = (0, ⟨⟨4, [[true, false, false, false]]⟩, ⟨4, []⟩, ⟨4, []⟩, ⟨4, []⟩⟩,
         [Event.lock 0, Event.persist 0, Event.unlock 0]) := by
  decide

end VMFS
